import Mathlib

/-!
Shallow embedding of `maidsafe::crux::detail::periodic_timer`
(src/include/maidsafe/crux/detail/periodic_timer.hpp).

The timer is a six-state reentrant state machine over a single-threaded
asynchronous reactor (boost::asio::steady_timer).  We model:

* the `state_type` enum as `State`;
* the timer object (its `state`, `period_duration`, stored `handler`, and
  the shared `was_destroyed` liveness token) together with the reactor's
  bookkeeping (the multiset of scheduled wake-ups whose completion has not
  yet been delivered) as `Config`.  `pending` is the list of durations with
  which outstanding `async_wait` calls were scheduled; a `timer.cancel()`
  does not remove an entry (asio delivers the aborted completion later),
  only completion delivery pops it;
* the user handler (`std::function<void()>`) as `Option (List Action)`:
  `none` is an empty `std::function`, and a non-empty handler is a finite
  sequence of re-entrant calls on the same timer (start / stop /
  fast_forward / set_period / set_handler / destroy), which is exactly the
  interface the handler has to the timer;
* each member function as a pure function `Config → Res`, where `Res`
  carries the resulting configuration plus the observable effects of the
  call: how many `timer.cancel()` calls it made, how many `async_wait`
  calls it made, which handler values it invoked (the captured
  `local_handler` copies), whether `assert(0)` was reached (`fatal`), and
  whether every entry to `do_start` happened while no wake-up was pending
  with the reactor (`doStartOk`, the instrumented side condition of the
  single-pending-wake-up invariant).

`assert(0)` is modelled as an abort (`fatal := true`, nothing further
executes), i.e. a debug build; this is the documented intent of the code.
Actions of a handler after it has destroyed its own timer are undefined
behaviour in C++ and are modelled as no-ops (`runActions` stops once the
liveness token is set).
-/

namespace PeriodicTimer

/-- The `state_type` enum of `periodic_timer`. -/
inductive State where
  | stopped
  | running
  | executing
  | cancelingToStop
  | cancelingToStart
  | cancelingToFF
deriving DecidableEq, Repr

/-- A re-entrant call a user handler can make on its own timer.  `setHandler`
stores a new handler body; `destroy` runs the destructor. -/
inductive Action where
  | start
  | stop
  | fastForward
  | setPeriod (d : Nat)
  | setHandler (h : List Action)
  | destroy

/-- The timer object together with the reactor bookkeeping: `pending` lists
the durations of scheduled wake-ups whose completion has not yet been
delivered; `wasDestroyed` is the shared liveness token. -/
structure Config where
  state : State
  period : Nat
  handler : Option (List Action)
  pending : List Nat
  wasDestroyed : Bool

/-- Result of executing a call: the new configuration plus the call's
observable effects. -/
structure Res where
  cfg : Config
  cancels : Nat
  schedules : Nat
  invocations : List (List Action)
  doStartOk : Bool
  fatal : Bool

/-- A call that only updates the configuration and has no effects. -/
def Res.pure (c : Config) : Res :=
  { cfg := c, cancels := 0, schedules := 0, invocations := [],
    doStartOk := true, fatal := false }

/-- Sequencing of two call results (`r2` was computed from `r1.cfg`). -/
def Res.comb (r1 r2 : Res) : Res :=
  { cfg := r2.cfg, cancels := r1.cancels + r2.cancels,
    schedules := r1.schedules + r2.schedules,
    invocations := r1.invocations ++ r2.invocations,
    doStartOk := r1.doStartOk && r2.doStartOk,
    fatal := r1.fatal || r2.fatal }

/-- `periodic_timer::do_start`: set state to `running`, then
`timer.expires_from_now(period_duration)` and `timer.async_wait(...)`,
scheduling one fresh wake-up with the current period.  `doStartOk` records
whether no wake-up was pending with the reactor on entry. -/
def doStart (c : Config) : Res :=
  { cfg := { c with state := State.running, pending := c.pending ++ [c.period] },
    cancels := 0, schedules := 1, invocations := [],
    doStartOk := c.pending.isEmpty, fatal := false }

/-- `periodic_timer::stop`. -/
def stop (c : Config) : Res :=
  match c.state with
  | State.stopped => Res.pure c
  | State.running =>
      { Res.pure { c with state := State.cancelingToStop } with cancels := 1 }
  | State.executing => Res.pure { c with state := State.stopped }
  | State.cancelingToStop => Res.pure c
  | State.cancelingToStart => Res.pure { c with state := State.cancelingToStop }
  | State.cancelingToFF => Res.pure { c with state := State.cancelingToStop }

/-- `periodic_timer::start`, with explicit recursion fuel for the
`case running: stop(); start();` branch.  The inner `start` always sees
state `cancelingToStop`, so a fuel of 2 (see `start`) never runs out. -/
def startAux : Nat → Config → Res
  | 0, c => Res.pure c
  | fuel + 1, c =>
      match c.state with
      | State.stopped => doStart c
      | State.running => Res.comb (stop c) (startAux fuel (stop c).cfg)
      | State.executing => doStart c
      | State.cancelingToStop => Res.pure { c with state := State.cancelingToStart }
      | State.cancelingToStart => Res.pure c
      | State.cancelingToFF => Res.pure { c with state := State.cancelingToStart }

/-- `periodic_timer::start`. -/
def start (c : Config) : Res := startAux 2 c

/-- `periodic_timer::fast_forward`: `start(); stop(); state = canceling_to_ff;`. -/
def fastForward (c : Config) : Res :=
  let r := Res.comb (start c) (stop (start c).cfg)
  { r with cfg := { r.cfg with state := State.cancelingToFF } }

/-- `periodic_timer::set_period`. -/
def setPeriod (d : Nat) (c : Config) : Res :=
  Res.pure { c with period := d }

/-- `periodic_timer::set_handler`. -/
def setHandler (h : Option (List Action)) (c : Config) : Res :=
  Res.pure { c with handler := h }

/-- `periodic_timer::~periodic_timer`: `stop(); *was_destroyed = true;`. -/
def destroy (c : Config) : Res :=
  let r := stop c
  { r with cfg := { r.cfg with wasDestroyed := true } }

/-- One re-entrant call made by a running handler. -/
def runAction (c : Config) : Action → Res
  | Action.start => start c
  | Action.stop => stop c
  | Action.fastForward => fastForward c
  | Action.setPeriod d => setPeriod d c
  | Action.setHandler h => setHandler (some h) c
  | Action.destroy => destroy c

/-- Execution of a handler body: its calls in order.  Once the handler has
destroyed its own timer, the remaining calls would be undefined behaviour
and are modelled as doing nothing. -/
def runActions (c : Config) : List Action → Res
  | [] => Res.pure c
  | a :: rest =>
      if c.wasDestroyed then Res.pure c
      else Res.comb (runAction c a) (runActions (runAction c a).cfg rest)

/-- The tail of `periodic_timer::do_handle_tick` after the switch:
`state = executing;` then, if a handler is stored, invoke a local copy of
it and bail out if it destroyed the timer; finally, if the state is still
`executing`, call `start()` again. -/
def executeStep (c : Config) : Res :=
  let c1 : Config := { c with state := State.executing }
  match c1.handler with
  | none =>
      if c1.state = State.executing then start c1 else Res.pure c1
  | some h =>
      let r0 := runActions c1 h
      let r : Res := { r0 with invocations := h :: r0.invocations }
      if r.cfg.wasDestroyed then r
      else if r.cfg.state = State.executing then Res.comb r (start r.cfg)
      else r

/-- `periodic_timer::do_handle_tick`: dispatch on the current state.  The
`executing` case is `assert(0)`, modelled as a fatal abort. -/
def doHandleTick (c : Config) : Res :=
  match c.state with
  | State.stopped => Res.pure c
  | State.running => executeStep c
  | State.executing => { Res.pure c with fatal := true }
  | State.cancelingToStop => Res.pure { c with state := State.stopped }
  | State.cancelingToStart => doStart c
  | State.cancelingToFF => executeStep c

/-- Delivery of one reactor completion: the lambda registered in
`do_start` runs; it first pops the wake-up it belongs to, then checks the
liveness token (`if (*was_destroyed_copy) return;`) and calls
`do_handle_tick`.  With no pending wake-up there is nothing to deliver. -/
def deliverTick (c : Config) : Res :=
  match c.pending with
  | [] => Res.pure c
  | _ :: rest =>
      let c1 : Config := { c with pending := rest }
      if c1.wasDestroyed then Res.pure c1
      else doHandleTick c1

/-- A top-level event: a public call on the timer by its owner, or the
reactor delivering a completion. -/
inductive Event where
  | start
  | stop
  | fastForward
  | setPeriod (d : Nat)
  | setHandler (h : List Action)
  | destroy
  | tick

/-- The public call corresponding to an event (used only for non-tick
events on a live timer). -/
def publicOp (c : Config) : Event → Res
  | Event.start => start c
  | Event.stop => stop c
  | Event.fastForward => fastForward c
  | Event.setPeriod d => setPeriod d c
  | Event.setHandler h => setHandler (some h) c
  | Event.destroy => destroy c
  | Event.tick => Res.pure c

/-- One top-level step.  Public calls can only happen while the object is
alive; a tick can also arrive after destruction (the stale completion). -/
def stepEv (c : Config) (e : Event) : Res :=
  match e with
  | Event.tick => deliverTick c
  | e => if c.wasDestroyed then Res.pure c else publicOp c e

/-- Running a finite sequence of top-level events, accumulating effects. -/
def run (c : Config) : List Event → Res
  | [] => Res.pure c
  | e :: es => Res.comb (stepEv c e) (run (stepEv c e).cfg es)

/-- A freshly constructed timer: state `stopped`, no pending wake-up, the
liveness token false; `p` is the (uninitialised in the source, hence
arbitrary) initial period and `h` the optional constructor handler. -/
def init (p : Nat) (h : Option (List Action)) : Config :=
  { state := State.stopped, period := p, handler := h, pending := [],
    wasDestroyed := false }

/-- How many wake-ups are pending with the reactor in a given (live)
state: one in `running` and in each cancellation state, none in `stopped`
and `executing`. -/
def wake : State → Nat
  | State.stopped => 0
  | State.executing => 0
  | _ => 1

/-- The reachability invariant: while the timer is alive, the number of
pending wake-ups is exactly determined by the state; after destruction at
most one stale completion can still be in flight. -/
def invB (c : Config) : Bool :=
  if c.wasDestroyed then decide (c.pending.length ≤ 1)
  else c.pending.length == wake c.state

theorem invB_live {c : Config} (hd : c.wasDestroyed = false) :
    invB c = true ↔ c.pending.length = wake c.state := by
  simp [invB, hd]

theorem invB_dead {c : Config} (hd : c.wasDestroyed = true) :
    invB c = true ↔ c.pending.length ≤ 1 := by
  simp [invB, hd]

theorem stop_spec (c : Config) :
    (stop c).cfg.pending = c.pending ∧ (stop c).cfg.wasDestroyed = c.wasDestroyed ∧
    wake (stop c).cfg.state = wake c.state ∧ (stop c).cfg.handler = c.handler ∧
    (stop c).cfg.period = c.period ∧ (stop c).schedules = 0 ∧
    (stop c).invocations = [] ∧ (stop c).doStartOk = true ∧ (stop c).fatal = false := by
  obtain ⟨s, p, h, pend, d⟩ := c
  cases s <;> simp [stop, Res.pure, wake]

theorem stop_invB {c : Config} (h : invB c = true) : invB (stop c).cfg = true := by
  obtain ⟨s, p, hh, pend, d⟩ := c
  cases s <;> cases d <;> simp_all [stop, Res.pure, invB, wake]

theorem doStart_live {c : Config} (hd : c.wasDestroyed = false) (hp : c.pending = []) :
    invB (doStart c).cfg = true ∧ (doStart c).doStartOk = true := by
  simp [doStart, invB, hd, hp, wake]

theorem start_invB {c : Config} (hd : c.wasDestroyed = false) (h : invB c = true) :
    invB (start c).cfg = true ∧ (start c).doStartOk = true ∧
    (start c).cfg.wasDestroyed = false := by
  obtain ⟨s, p, hh, pend, d⟩ := c
  subst hd
  cases s <;>
    simp_all [start, startAux, stop, doStart, Res.pure, Res.comb, invB, wake,
      List.length_eq_zero, List.isEmpty_iff]

theorem fastForward_invB {c : Config} (hd : c.wasDestroyed = false) (h : invB c = true) :
    invB (fastForward c).cfg = true ∧ (fastForward c).doStartOk = true ∧
    (fastForward c).cfg.wasDestroyed = false := by
  obtain ⟨s, p, hh, pend, d⟩ := c
  subst hd
  cases s <;>
    simp_all [fastForward, start, startAux, stop, doStart, Res.pure, Res.comb, invB, wake,
      List.length_eq_zero, List.isEmpty_iff]

theorem destroy_invB {c : Config} (h : invB c = true) :
    invB (destroy c).cfg = true ∧ (destroy c).doStartOk = true ∧
    (destroy c).cfg.wasDestroyed = true := by
  obtain ⟨s, p, hh, pend, d⟩ := c
  cases s <;> cases d <;>
    simp_all [destroy, stop, Res.pure, invB, wake]

theorem runAction_invB {c : Config} (a : Action) (hd : c.wasDestroyed = false)
    (h : invB c = true) :
    invB (runAction c a).cfg = true ∧ (runAction c a).doStartOk = true := by
  cases a with
  | start => exact ⟨(start_invB hd h).1, (start_invB hd h).2.1⟩
  | stop => exact ⟨stop_invB h, (stop_spec c).2.2.2.2.2.2.2.1⟩
  | fastForward => exact ⟨(fastForward_invB hd h).1, (fastForward_invB hd h).2.1⟩
  | setPeriod d =>
      refine ⟨?_, rfl⟩
      simpa [runAction, setPeriod, Res.pure, invB, wake] using h
  | setHandler hb =>
      refine ⟨?_, rfl⟩
      simpa [runAction, setHandler, Res.pure, invB, wake] using h
  | destroy => exact ⟨(destroy_invB h).1, (destroy_invB h).2.1⟩

theorem runActions_invB {c : Config} (l : List Action) (h : invB c = true) :
    invB (runActions c l).cfg = true ∧ (runActions c l).doStartOk = true := by
  induction l generalizing c with
  | nil => exact ⟨h, rfl⟩
  | cons a rest ih =>
      by_cases hd : c.wasDestroyed = true
      · simpa [runActions, hd] using ⟨h, rfl⟩
      · have hd' : c.wasDestroyed = false := by simpa using hd
        have h1 := runAction_invB a hd' h
        have h2 := ih h1.1
        simp [runActions, hd', Res.comb, h1.1, h1.2, h2.1, h2.2]

theorem executeStep_invB {c : Config} (hd : c.wasDestroyed = false)
    (hp : c.pending = []) :
    invB (executeStep c).cfg = true ∧ (executeStep c).doStartOk = true := by
  obtain ⟨s, p, hand, pend, d⟩ := c
  replace hd : d = false := hd
  replace hp : pend = [] := hp
  subst hd
  subst hp
  cases hand with
  | none =>
      have hs := start_invB (c := ⟨State.executing, p, none, [], false⟩) rfl
        (by simp [invB, wake])
      simpa [executeStep] using ⟨hs.1, hs.2.1⟩
  | some hb =>
      have h0 := runActions_invB (c := ⟨State.executing, p, some hb, [], false⟩) hb
        (by simp [invB, wake])
      by_cases hdl :
          (runActions ⟨State.executing, p, some hb, [], false⟩ hb).cfg.wasDestroyed = true
      · simpa [executeStep, hdl] using ⟨h0.1, h0.2⟩
      · have hdl' :
            (runActions ⟨State.executing, p, some hb, [], false⟩ hb).cfg.wasDestroyed = false := by
          simpa using hdl
        by_cases hst :
            (runActions ⟨State.executing, p, some hb, [], false⟩ hb).cfg.state = State.executing
        · have hs := start_invB hdl' h0.1
          simp [executeStep, hdl', hst, Res.comb, h0.1, h0.2, hs.1, hs.2.1]
        · simpa [executeStep, hdl', hst] using ⟨h0.1, h0.2⟩

theorem doHandleTick_invB {c : Config} (hd : c.wasDestroyed = false)
    (hp : c.pending = []) :
    invB (doHandleTick c).cfg = true ∧ (doHandleTick c).doStartOk = true := by
  cases hs : c.state with
  | running => simpa [doHandleTick, hs] using executeStep_invB hd hp
  | cancelingToFF => simpa [doHandleTick, hs] using executeStep_invB hd hp
  | cancelingToStart => simpa [doHandleTick, hs] using doStart_live hd hp
  | stopped => simp [doHandleTick, hs, Res.pure, invB, hd, hp, wake]
  | executing => simp [doHandleTick, hs, Res.pure, invB, hd, hp, wake]
  | cancelingToStop => simp [doHandleTick, hs, Res.pure, invB, hd, hp, wake]

theorem deliverTick_invB {c : Config} (h : invB c = true) :
    invB (deliverTick c).cfg = true ∧ (deliverTick c).doStartOk = true := by
  cases hp : c.pending with
  | nil => simpa [deliverTick, hp] using ⟨h, rfl⟩
  | cons d0 rest =>
      by_cases hd : c.wasDestroyed = true
      · have hle := (invB_dead hd).1 h
        rw [hp, List.length_cons] at hle
        have hrest : rest = [] := List.length_eq_zero.mp (by omega)
        subst hrest
        simp [deliverTick, hp, hd, Res.pure, invB]
      · have hd' : c.wasDestroyed = false := by simpa using hd
        have heq := (invB_live hd').1 h
        rw [hp, List.length_cons] at heq
        have hw : wake c.state ≤ 1 := by
          cases c.state <;> simp [wake]
        have hrest : rest = [] := List.length_eq_zero.mp (by omega)
        subst hrest
        simpa [deliverTick, hp, hd'] using
          doHandleTick_invB (c := { c with pending := [] }) hd' rfl

theorem stepEv_invB {c : Config} (e : Event) (h : invB c = true) :
    invB (stepEv c e).cfg = true ∧ (stepEv c e).doStartOk = true := by
  cases e with
  | tick => simpa [stepEv] using deliverTick_invB h
  | start =>
      by_cases hd : c.wasDestroyed = true
      · simpa [stepEv, hd] using ⟨h, rfl⟩
      · have hd' : c.wasDestroyed = false := by simpa using hd
        have := start_invB hd' h
        simpa [stepEv, hd', publicOp] using ⟨this.1, this.2.1⟩
  | stop =>
      by_cases hd : c.wasDestroyed = true
      · simpa [stepEv, hd] using ⟨h, rfl⟩
      · have hd' : c.wasDestroyed = false := by simpa using hd
        simpa [stepEv, hd', publicOp] using ⟨stop_invB h, (stop_spec c).2.2.2.2.2.2.2.1⟩
  | fastForward =>
      by_cases hd : c.wasDestroyed = true
      · simpa [stepEv, hd] using ⟨h, rfl⟩
      · have hd' : c.wasDestroyed = false := by simpa using hd
        have := fastForward_invB hd' h
        simpa [stepEv, hd', publicOp] using ⟨this.1, this.2.1⟩
  | setPeriod d =>
      by_cases hd : c.wasDestroyed = true
      · simpa [stepEv, hd] using ⟨h, rfl⟩
      · have hd' : c.wasDestroyed = false := by simpa using hd
        refine ⟨?_, by simp [stepEv, hd', publicOp, setPeriod, Res.pure]⟩
        simp only [stepEv, hd', publicOp]
        simpa [setPeriod, Res.pure, invB, wake] using h
  | setHandler hb =>
      by_cases hd : c.wasDestroyed = true
      · simpa [stepEv, hd] using ⟨h, rfl⟩
      · have hd' : c.wasDestroyed = false := by simpa using hd
        refine ⟨?_, by simp [stepEv, hd', publicOp, setHandler, Res.pure]⟩
        simp only [stepEv, hd', publicOp]
        simpa [setHandler, Res.pure, invB, wake] using h
  | destroy =>
      by_cases hd : c.wasDestroyed = true
      · simpa [stepEv, hd] using ⟨h, rfl⟩
      · have hd' : c.wasDestroyed = false := by simpa using hd
        have := destroy_invB h
        simpa [stepEv, hd', publicOp] using ⟨this.1, this.2.1⟩

theorem run_invB {c : Config} (es : List Event) (h : invB c = true) :
    invB (run c es).cfg = true ∧ (run c es).doStartOk = true := by
  induction es generalizing c with
  | nil => exact ⟨h, rfl⟩
  | cons e rest ih =>
      have h1 := stepEv_invB e h
      have h2 := ih h1.1
      simp [run, Res.comb, h1.1, h1.2, h2.1, h2.2]

theorem wake_le_one (s : State) : wake s ≤ 1 := by
  cases s <;> simp [wake]

theorem startAux_invocations (fuel : Nat) (c : Config) :
    (startAux fuel c).invocations = [] := by
  induction fuel generalizing c with
  | zero => rfl
  | succ n ih =>
      obtain ⟨s, p, h, pend, d⟩ := c
      cases s <;> simp [startAux, stop, doStart, Res.pure, Res.comb, ih]

theorem start_invocations (c : Config) : (start c).invocations = [] :=
  startAux_invocations 2 c

theorem fastForward_invocations (c : Config) : (fastForward c).invocations = [] := by
  simp [fastForward, Res.comb, start_invocations, (stop_spec (start c).cfg).2.2.2.2.2.2.1]

theorem destroy_invocations (c : Config) : (destroy c).invocations = [] := by
  simp [destroy, (stop_spec c).2.2.2.2.2.2.1]

theorem runAction_invocations (c : Config) (a : Action) :
    (runAction c a).invocations = [] := by
  cases a with
  | start => exact start_invocations c
  | stop => exact (stop_spec c).2.2.2.2.2.2.1
  | fastForward => exact fastForward_invocations c
  | setPeriod d => rfl
  | setHandler h => rfl
  | destroy => exact destroy_invocations c

theorem runActions_invocations (c : Config) (l : List Action) :
    (runActions c l).invocations = [] := by
  induction l generalizing c with
  | nil => rfl
  | cons a rest ih =>
      by_cases hd : c.wasDestroyed = true
      · simp [runActions, hd, Res.pure]
      · have hd' : c.wasDestroyed = false := by simpa using hd
        simp [runActions, hd', Res.comb, runAction_invocations, ih]

theorem executeStep_invocations_some {c : Config} {h : List Action}
    (hh : c.handler = some h) : (executeStep c).invocations = [h] := by
  obtain ⟨s, p, hand, pend, d⟩ := c
  replace hh : hand = some h := hh
  subst hh
  by_cases hdl : (runActions ⟨State.executing, p, some h, pend, d⟩ h).cfg.wasDestroyed = true
  · simp [executeStep, hdl, runActions_invocations]
  · have hdl' :
        (runActions ⟨State.executing, p, some h, pend, d⟩ h).cfg.wasDestroyed = false := by
      simpa using hdl
    by_cases hst : (runActions ⟨State.executing, p, some h, pend, d⟩ h).cfg.state = State.executing
    · simp [executeStep, hdl', hst, Res.comb, runActions_invocations, start_invocations]
    · simp [executeStep, hdl', hst, runActions_invocations]

theorem executeStep_invocations_none {c : Config} (hh : c.handler = none) :
    (executeStep c).invocations = [] := by
  obtain ⟨s, p, hand, pend, d⟩ := c
  replace hh : hand = none := hh
  subst hh
  simp [executeStep, start_invocations]

/-- C1: for every finite sequence of top-level events — public calls
start / stop / fast_forward / set_period / set_handler / destroy
(re-entrant calls from inside the handler included, since every handler
body is itself a sequence of such calls) interleaved with reactor
completion deliveries — every entry to `do_start` during the whole run
happened while no wake-up was pending with the reactor (`doStartOk`),
and hence at most one wake-up is pending at any instant; in particular at
most one is pending in the final configuration. -/
theorem C1_single_pending_wakeup (p : Nat) (h : Option (List Action)) (es : List Event) :
    (run (init p h) es).doStartOk = true ∧
    (run (init p h) es).cfg.pending.length ≤ 1 := by
  have h0 : invB (init p h) = true := by simp [invB, init, wake]
  have hr := run_invB es h0
  refine ⟨hr.2, ?_⟩
  by_cases hd : (run (init p h) es).cfg.wasDestroyed = true
  · exact (invB_dead hd).1 hr.1
  · have hd' : (run (init p h) es).cfg.wasDestroyed = false := by simpa using hd
    have he := (invB_live hd').1 hr.1
    have hw := wake_le_one (run (init p h) es).cfg.state
    omega

/-- C2: `fast_forward()` never invokes the handler synchronously: from every
configuration the call produces no handler invocation and leaves the state
at `canceling_to_ff`; the handler fires only on a later reactor dispatch,
namely when the forced cancellation's completion is delivered in state
`canceling_to_ff` (then exactly the stored handler is invoked). -/
theorem C2_fast_forward_asynchronous (c c2 : Config) (h : List Action) (d0 : Nat)
    (hs2 : c2.state = State.cancelingToFF) (hd2 : c2.wasDestroyed = false)
    (hh2 : c2.handler = some h) (hp2 : c2.pending = [d0]) :
    (fastForward c).invocations = [] ∧
    (fastForward c).cfg.state = State.cancelingToFF ∧
    (deliverTick c2).invocations = [h] := by
  refine ⟨fastForward_invocations c, rfl, ?_⟩
  obtain ⟨s2, p2, hand2, pend2, d2⟩ := c2
  replace hs2 : s2 = State.cancelingToFF := hs2
  replace hd2 : d2 = false := hd2
  replace hh2 : hand2 = some h := hh2
  replace hp2 : pend2 = [d0] := hp2
  subst hs2
  subst hd2
  subst hh2
  subst hp2
  simpa [deliverTick, doHandleTick] using
    executeStep_invocations_some (c := ⟨State.cancelingToFF, p2, some h, [], false⟩) rfl

theorem C2_fast_forward_asynchronous_witness :
    (fastForward (init 5 none)).invocations = [] ∧
    (fastForward (init 5 none)).cfg.state = State.cancelingToFF ∧
    (deliverTick ⟨State.cancelingToFF, 5, some [Action.stop], [7], false⟩).invocations =
      [[Action.stop]] :=
  C2_fast_forward_asynchronous (init 5 none)
    ⟨State.cancelingToFF, 5, some [Action.stop], [7], false⟩ [Action.stop] 7 rfl rfl rfl rfl

/-- C3: if the tick handler `do_handle_tick` runs while the state is
`executing`, the `assert(0)` fires: the step is fatal, and nothing is
silently done instead (no state change, no handler invocation, no reactor
call). -/
theorem C3_tick_while_executing_fatal (c : Config) (hs : c.state = State.executing) :
    (doHandleTick c).fatal = true ∧ (doHandleTick c).cfg = c ∧
    (doHandleTick c).invocations = [] ∧ (doHandleTick c).cancels = 0 ∧
    (doHandleTick c).schedules = 0 := by
  obtain ⟨s, p, hand, pend, d⟩ := c
  replace hs : s = State.executing := hs
  subst hs
  simp [doHandleTick, Res.pure]

theorem C3_tick_while_executing_fatal_witness :
    (doHandleTick ⟨State.executing, 3, none, [], false⟩).fatal = true ∧
    (doHandleTick ⟨State.executing, 3, none, [], false⟩).cfg =
      ⟨State.executing, 3, none, [], false⟩ ∧
    (doHandleTick ⟨State.executing, 3, none, [], false⟩).invocations = [] ∧
    (doHandleTick ⟨State.executing, 3, none, [], false⟩).cancels = 0 ∧
    (doHandleTick ⟨State.executing, 3, none, [], false⟩).schedules = 0 :=
  C3_tick_while_executing_fatal ⟨State.executing, 3, none, [], false⟩ rfl

/-- C4: the destructor sets the liveness token to true, and it does so only
after the `stop()` call that requests cancellation of any pending wake-up
(the destructor is exactly `stop()` followed by setting the token; with a
wake-up pending in state `running` that `stop()` issues one cancel).  Once
the token is set, no event mutates the timer again: any further step leaves
state, period, handler and token untouched (the reactor merely pops the
delivered completion), invokes no handler and makes no reactor call — the
completion callback returns immediately on observing the token. -/
theorem C4_liveness_token (c c2 : Config) (e : Event) (hd2 : c2.wasDestroyed = true) :
    (destroy c).cfg.wasDestroyed = true ∧
    (destroy c).cfg = { (stop c).cfg with wasDestroyed := true } ∧
    (destroy c).cancels = (stop c).cancels ∧
    (c.state = State.running → (destroy c).cancels = 1) ∧
    (stepEv c2 e).cfg.state = c2.state ∧
    (stepEv c2 e).cfg.period = c2.period ∧
    (stepEv c2 e).cfg.handler = c2.handler ∧
    (stepEv c2 e).cfg.wasDestroyed = true ∧
    ((stepEv c2 e).cfg.pending = c2.pending ∨ (stepEv c2 e).cfg.pending = c2.pending.tail) ∧
    (stepEv c2 e).invocations = [] ∧ (stepEv c2 e).cancels = 0 ∧
    (stepEv c2 e).schedules = 0 ∧ (stepEv c2 e).fatal = false := by
  refine ⟨rfl, rfl, rfl, ?_, ?_⟩
  · intro hs
    obtain ⟨s, p, hand, pend, d⟩ := c
    replace hs : s = State.running := hs
    subst hs
    simp [destroy, stop, Res.pure]
  · obtain ⟨s2, p2, hand2, pend2, d2⟩ := c2
    replace hd2 : d2 = true := hd2
    subst hd2
    cases e with
    | tick =>
        cases pend2 with
        | nil => simp [stepEv, deliverTick, Res.pure]
        | cons a rest => simp [stepEv, deliverTick, Res.pure]
    | start => simp [stepEv, Res.pure]
    | stop => simp [stepEv, Res.pure]
    | fastForward => simp [stepEv, Res.pure]
    | setPeriod d => simp [stepEv, Res.pure]
    | setHandler hb => simp [stepEv, Res.pure]
    | destroy => simp [stepEv, Res.pure]

theorem C4_liveness_token_witness :
    (destroy ⟨State.running, 4, none, [9], false⟩).cfg.wasDestroyed = true ∧
    (destroy ⟨State.running, 4, none, [9], false⟩).cfg =
      { (stop ⟨State.running, 4, none, [9], false⟩).cfg with wasDestroyed := true } ∧
    (destroy ⟨State.running, 4, none, [9], false⟩).cancels =
      (stop ⟨State.running, 4, none, [9], false⟩).cancels ∧
    ((⟨State.running, 4, none, [9], false⟩ : Config).state = State.running →
      (destroy ⟨State.running, 4, none, [9], false⟩).cancels = 1) ∧
    (stepEv ⟨State.cancelingToStop, 4, none, [9], true⟩ Event.tick).cfg.state =
      (⟨State.cancelingToStop, 4, none, [9], true⟩ : Config).state ∧
    (stepEv ⟨State.cancelingToStop, 4, none, [9], true⟩ Event.tick).cfg.period =
      (⟨State.cancelingToStop, 4, none, [9], true⟩ : Config).period ∧
    (stepEv ⟨State.cancelingToStop, 4, none, [9], true⟩ Event.tick).cfg.handler =
      (⟨State.cancelingToStop, 4, none, [9], true⟩ : Config).handler ∧
    (stepEv ⟨State.cancelingToStop, 4, none, [9], true⟩ Event.tick).cfg.wasDestroyed = true ∧
    ((stepEv ⟨State.cancelingToStop, 4, none, [9], true⟩ Event.tick).cfg.pending =
        (⟨State.cancelingToStop, 4, none, [9], true⟩ : Config).pending ∨
      (stepEv ⟨State.cancelingToStop, 4, none, [9], true⟩ Event.tick).cfg.pending =
        (⟨State.cancelingToStop, 4, none, [9], true⟩ : Config).pending.tail) ∧
    (stepEv ⟨State.cancelingToStop, 4, none, [9], true⟩ Event.tick).invocations = [] ∧
    (stepEv ⟨State.cancelingToStop, 4, none, [9], true⟩ Event.tick).cancels = 0 ∧
    (stepEv ⟨State.cancelingToStop, 4, none, [9], true⟩ Event.tick).schedules = 0 ∧
    (stepEv ⟨State.cancelingToStop, 4, none, [9], true⟩ Event.tick).fatal = false :=
  C4_liveness_token ⟨State.running, 4, none, [9], false⟩
    ⟨State.cancelingToStop, 4, none, [9], true⟩ Event.tick rfl

/-- C5: after the handler body `h` returns inside the execution step, the
liveness token is checked first — if the handler destroyed the timer,
nothing further happens (final configuration, schedule count and cancel
count are exactly those the handler left).  Otherwise the timer
auto-restarts if and only if the state is still `executing`: in that case
`start()` is called again, re-entering `running` with exactly one fresh
wake-up; if the handler changed the state (e.g. called `stop()`), that
state is honored and nothing more is scheduled. -/
theorem C5_post_handler_restart (c : Config) (h : List Action) (r : Res)
    (hh : c.handler = some h)
    (hr : r = runActions { c with state := State.executing } h) :
    (r.cfg.wasDestroyed = true →
      (executeStep c).cfg = r.cfg ∧ (executeStep c).schedules = r.schedules ∧
      (executeStep c).cancels = r.cancels) ∧
    (r.cfg.wasDestroyed = false → r.cfg.state = State.executing →
      executeStep c =
        Res.comb { r with invocations := h :: r.invocations } (start r.cfg) ∧
      (executeStep c).cfg.state = State.running ∧
      (executeStep c).schedules = r.schedules + 1) ∧
    (r.cfg.wasDestroyed = false → r.cfg.state ≠ State.executing →
      (executeStep c).cfg = r.cfg ∧ (executeStep c).schedules = r.schedules) := by
  obtain ⟨s, p, hand, pend, d⟩ := c
  replace hh : hand = some h := hh
  subst hh
  subst hr
  refine ⟨?_, ?_, ?_⟩
  · intro hdl
    simp [executeStep, hdl]
  · intro hdl hst
    refine ⟨by simp [executeStep, hdl, hst], ?_, ?_⟩
    · simp [executeStep, hdl, hst, Res.comb, start, startAux, doStart]
    · simp [executeStep, hdl, hst, Res.comb, start, startAux, doStart]
  · intro hdl hst
    simp [executeStep, hdl, hst]

theorem C5_post_handler_restart_witness :
    ((⟨⟨State.stopped, 3, some [Action.stop], [], false⟩, 0, 0, [], true, false⟩ :
        Res).cfg.wasDestroyed = true →
      (executeStep ⟨State.running, 3, some [Action.stop], [], false⟩).cfg =
        (⟨⟨State.stopped, 3, some [Action.stop], [], false⟩, 0, 0, [], true, false⟩ :
          Res).cfg ∧
      (executeStep ⟨State.running, 3, some [Action.stop], [], false⟩).schedules =
        (⟨⟨State.stopped, 3, some [Action.stop], [], false⟩, 0, 0, [], true, false⟩ :
          Res).schedules ∧
      (executeStep ⟨State.running, 3, some [Action.stop], [], false⟩).cancels =
        (⟨⟨State.stopped, 3, some [Action.stop], [], false⟩, 0, 0, [], true, false⟩ :
          Res).cancels) ∧
    ((⟨⟨State.stopped, 3, some [Action.stop], [], false⟩, 0, 0, [], true, false⟩ :
        Res).cfg.wasDestroyed = false →
      (⟨⟨State.stopped, 3, some [Action.stop], [], false⟩, 0, 0, [], true, false⟩ :
        Res).cfg.state = State.executing →
      executeStep ⟨State.running, 3, some [Action.stop], [], false⟩ =
        Res.comb
          { (⟨⟨State.stopped, 3, some [Action.stop], [], false⟩, 0, 0, [], true, false⟩ :
              Res) with
            invocations :=
              [Action.stop] ::
                (⟨⟨State.stopped, 3, some [Action.stop], [], false⟩, 0, 0, [], true, false⟩ :
                  Res).invocations }
          (start
            (⟨⟨State.stopped, 3, some [Action.stop], [], false⟩, 0, 0, [], true, false⟩ :
              Res).cfg) ∧
      (executeStep ⟨State.running, 3, some [Action.stop], [], false⟩).cfg.state =
        State.running ∧
      (executeStep ⟨State.running, 3, some [Action.stop], [], false⟩).schedules =
        (⟨⟨State.stopped, 3, some [Action.stop], [], false⟩, 0, 0, [], true, false⟩ :
          Res).schedules + 1) ∧
    ((⟨⟨State.stopped, 3, some [Action.stop], [], false⟩, 0, 0, [], true, false⟩ :
        Res).cfg.wasDestroyed = false →
      (⟨⟨State.stopped, 3, some [Action.stop], [], false⟩, 0, 0, [], true, false⟩ :
        Res).cfg.state ≠ State.executing →
      (executeStep ⟨State.running, 3, some [Action.stop], [], false⟩).cfg =
        (⟨⟨State.stopped, 3, some [Action.stop], [], false⟩, 0, 0, [], true, false⟩ :
          Res).cfg ∧
      (executeStep ⟨State.running, 3, some [Action.stop], [], false⟩).schedules =
        (⟨⟨State.stopped, 3, some [Action.stop], [], false⟩, 0, 0, [], true, false⟩ :
          Res).schedules) :=
  C5_post_handler_restart ⟨State.running, 3, some [Action.stop], [], false⟩
    [Action.stop] ⟨⟨State.stopped, 3, some [Action.stop], [], false⟩, 0, 0, [], true, false⟩
    rfl rfl

/-- C6: calling `stop()` while the state is `executing` (from inside the
handler) goes directly to `stopped` with no reactor cancellation; the
post-handler check then sees a non-`executing` state and does not restart:
a tick delivered to a running timer whose handler is `[stop]` ends in
`stopped` with no wake-up scheduled and none pending. -/
theorem C6_self_stop (c c2 : Config) (d0 : Nat)
    (hs : c.state = State.executing)
    (hs2 : c2.state = State.running) (hd2 : c2.wasDestroyed = false)
    (hh2 : c2.handler = some [Action.stop]) (hp2 : c2.pending = [d0]) :
    stop c = Res.pure { c with state := State.stopped } ∧
    (stop c).cancels = 0 ∧
    (deliverTick c2).cfg.state = State.stopped ∧
    (deliverTick c2).schedules = 0 ∧ (deliverTick c2).cancels = 0 ∧
    (deliverTick c2).cfg.pending = [] ∧
    (deliverTick c2).invocations = [[Action.stop]] := by
  obtain ⟨s, p, hand, pend, d⟩ := c
  replace hs : s = State.executing := hs
  subst hs
  obtain ⟨s2, p2, hand2, pend2, d2⟩ := c2
  replace hs2 : s2 = State.running := hs2
  replace hd2 : d2 = false := hd2
  replace hh2 : hand2 = some [Action.stop] := hh2
  replace hp2 : pend2 = [d0] := hp2
  subst hs2
  subst hd2
  subst hh2
  subst hp2
  refine ⟨rfl, rfl, ?_, ?_, ?_, ?_, ?_⟩ <;>
    simp [deliverTick, doHandleTick, executeStep, runActions, runAction, stop,
      Res.pure, Res.comb]

theorem C6_self_stop_witness :
    stop ⟨State.executing, 2, some [Action.stop], [], false⟩ =
      Res.pure ⟨State.stopped, 2, some [Action.stop], [], false⟩ ∧
    (stop ⟨State.executing, 2, some [Action.stop], [], false⟩).cancels = 0 ∧
    (deliverTick ⟨State.running, 2, some [Action.stop], [6], false⟩).cfg.state =
      State.stopped ∧
    (deliverTick ⟨State.running, 2, some [Action.stop], [6], false⟩).schedules = 0 ∧
    (deliverTick ⟨State.running, 2, some [Action.stop], [6], false⟩).cancels = 0 ∧
    (deliverTick ⟨State.running, 2, some [Action.stop], [6], false⟩).cfg.pending = [] ∧
    (deliverTick ⟨State.running, 2, some [Action.stop], [6], false⟩).invocations =
      [[Action.stop]] :=
  C6_self_stop ⟨State.executing, 2, some [Action.stop], [], false⟩
    ⟨State.running, 2, some [Action.stop], [6], false⟩ 6 rfl rfl rfl rfl rfl

/-- C7: `start()` while `running` requests exactly one cancellation of the
pending wake-up (leaving it pending until its completion arrives),
schedules nothing during the call itself, and leaves the state at
`canceling_to_start`; the fresh wake-up is scheduled — by `do_start` —
only when a completion is delivered in state `canceling_to_start`, which
re-enters `running` with one newly scheduled wake-up. -/
theorem C7_start_while_running (c c2 : Config) (d0 : Nat)
    (hs : c.state = State.running)
    (hs2 : c2.state = State.cancelingToStart) (hd2 : c2.wasDestroyed = false)
    (hp2 : c2.pending = [d0]) :
    (start c).cancels = 1 ∧ (start c).schedules = 0 ∧
    (start c).cfg.state = State.cancelingToStart ∧
    (start c).cfg.pending = c.pending ∧
    (start c).invocations = [] ∧
    (deliverTick c2).schedules = 1 ∧ (deliverTick c2).cancels = 0 ∧
    (deliverTick c2).cfg.state = State.running ∧
    (deliverTick c2).cfg.pending = [c2.period] ∧
    (deliverTick c2).invocations = [] := by
  obtain ⟨s, p, hand, pend, d⟩ := c
  replace hs : s = State.running := hs
  subst hs
  obtain ⟨s2, p2, hand2, pend2, d2⟩ := c2
  replace hs2 : s2 = State.cancelingToStart := hs2
  replace hd2 : d2 = false := hd2
  replace hp2 : pend2 = [d0] := hp2
  subst hs2
  subst hd2
  subst hp2
  refine ⟨?_, ?_, ?_, ?_, ?_, ?_, ?_, ?_, ?_, ?_⟩ <;>
    simp [start, startAux, stop, doStart, deliverTick, doHandleTick,
      Res.pure, Res.comb]

theorem C7_start_while_running_witness :
    (start ⟨State.running, 8, none, [3], false⟩).cancels = 1 ∧
    (start ⟨State.running, 8, none, [3], false⟩).schedules = 0 ∧
    (start ⟨State.running, 8, none, [3], false⟩).cfg.state = State.cancelingToStart ∧
    (start ⟨State.running, 8, none, [3], false⟩).cfg.pending =
      (⟨State.running, 8, none, [3], false⟩ : Config).pending ∧
    (start ⟨State.running, 8, none, [3], false⟩).invocations = [] ∧
    (deliverTick ⟨State.cancelingToStart, 8, none, [3], false⟩).schedules = 1 ∧
    (deliverTick ⟨State.cancelingToStart, 8, none, [3], false⟩).cancels = 0 ∧
    (deliverTick ⟨State.cancelingToStart, 8, none, [3], false⟩).cfg.state = State.running ∧
    (deliverTick ⟨State.cancelingToStart, 8, none, [3], false⟩).cfg.pending =
      [(⟨State.cancelingToStart, 8, none, [3], false⟩ : Config).period] ∧
    (deliverTick ⟨State.cancelingToStart, 8, none, [3], false⟩).invocations = [] :=
  C7_start_while_running ⟨State.running, 8, none, [3], false⟩
    ⟨State.cancelingToStart, 8, none, [3], false⟩ 3 rfl rfl rfl rfl

/-- C8: `stop()` on a timer in state `stopped` is a complete no-op — it
returns the unchanged configuration with no reactor call and no handler
invocation — and from any state, a second `stop()` right after a first one
is such a no-op on the state the first one produced. -/
theorem C8_stop_idempotent (c c2 : Config) (hs : c.state = State.stopped) :
    stop c = Res.pure c ∧
    stop (stop c2).cfg = Res.pure (stop c2).cfg := by
  constructor
  · obtain ⟨s, p, hand, pend, d⟩ := c
    replace hs : s = State.stopped := hs
    subst hs
    rfl
  · obtain ⟨s2, p2, hand2, pend2, d2⟩ := c2
    cases s2 <;> rfl

theorem C8_stop_idempotent_witness :
    stop (init 2 none) = Res.pure (init 2 none) ∧
    stop (stop ⟨State.running, 2, none, [5], false⟩).cfg =
      Res.pure (stop ⟨State.running, 2, none, [5], false⟩).cfg :=
  C8_stop_idempotent (init 2 none) ⟨State.running, 2, none, [5], false⟩ rfl

/-- C9: the execution step invokes exactly the handler value captured when
it started: with stored handler `h` the single invocation of the step is
`h`, even when `h` replaces the handler; with `h = [set_handler h2]` the
stored handler afterwards is `h2` and only the next delivered tick invokes
`h2`.  Likewise `set_period` changes only the stored period: the already
pending wake-up keeps the duration it was scheduled with, and the next
`do_start` schedules with the new period. -/
theorem C9_handler_capture_and_period (c c3 : Config) (h h2 : List Action) (d : Nat)
    (hh : c.handler = some h)
    (h3h : c3.handler = some [Action.setHandler h2])
    (h3d : c3.wasDestroyed = false) (h3p : c3.pending = []) :
    (executeStep c).invocations = [h] ∧
    (executeStep c3).cfg.handler = some h2 ∧
    (executeStep c3).invocations = [[Action.setHandler h2]] ∧
    (deliverTick (executeStep c3).cfg).invocations = [h2] ∧
    (setPeriod d c).cfg.pending = c.pending ∧
    (setPeriod d c).cfg.period = d ∧
    (setPeriod d c).schedules = 0 ∧ (setPeriod d c).cancels = 0 ∧
    (doStart ((setPeriod d c).cfg)).cfg.pending = c.pending ++ [d] := by
  obtain ⟨s3, p3, hand3, pend3, d3⟩ := c3
  replace h3h : hand3 = some [Action.setHandler h2] := h3h
  replace h3d : d3 = false := h3d
  replace h3p : pend3 = [] := h3p
  subst h3h
  subst h3d
  subst h3p
  refine ⟨executeStep_invocations_some hh, ?_, ?_, ?_, rfl, rfl, rfl, rfl, rfl⟩
  · simp [executeStep, runActions, runAction, setHandler, start, startAux, doStart,
      Res.pure, Res.comb]
  · simp [executeStep, runActions, runAction, setHandler, start, startAux, doStart,
      Res.pure, Res.comb]
  · have hstep :
        (executeStep (⟨s3, p3, some [Action.setHandler h2], [], false⟩ : Config)).cfg =
          ⟨State.running, p3, some h2, [p3], false⟩ := by
      simp [executeStep, runActions, runAction, setHandler, start, startAux, doStart,
        Res.pure, Res.comb]
    rw [hstep]
    simpa [deliverTick, doHandleTick] using
      executeStep_invocations_some (c := ⟨State.running, p3, some h2, [], false⟩) rfl

theorem C9_handler_capture_and_period_witness :
    (executeStep ⟨State.running, 5, some [Action.start], [], false⟩).invocations =
      [[Action.start]] ∧
    (executeStep ⟨State.running, 5, some [Action.setHandler [Action.stop]], [], false⟩).cfg.handler =
      some [Action.stop] ∧
    (executeStep ⟨State.running, 5, some [Action.setHandler [Action.stop]], [], false⟩).invocations =
      [[Action.setHandler [Action.stop]]] ∧
    (deliverTick
        (executeStep
          ⟨State.running, 5, some [Action.setHandler [Action.stop]], [], false⟩).cfg).invocations =
      [[Action.stop]] ∧
    (setPeriod 11 ⟨State.running, 5, some [Action.start], [], false⟩).cfg.pending =
      (⟨State.running, 5, some [Action.start], [], false⟩ : Config).pending ∧
    (setPeriod 11 ⟨State.running, 5, some [Action.start], [], false⟩).cfg.period = 11 ∧
    (setPeriod 11 ⟨State.running, 5, some [Action.start], [], false⟩).schedules = 0 ∧
    (setPeriod 11 ⟨State.running, 5, some [Action.start], [], false⟩).cancels = 0 ∧
    (doStart ((setPeriod 11 ⟨State.running, 5, some [Action.start], [], false⟩).cfg)).cfg.pending =
      (⟨State.running, 5, some [Action.start], [], false⟩ : Config).pending ++ [11] :=
  C9_handler_capture_and_period ⟨State.running, 5, some [Action.start], [], false⟩
    ⟨State.running, 5, some [Action.setHandler [Action.stop]], [], false⟩
    [Action.start] [Action.stop] 11 rfl rfl rfl rfl

/-- C10: with no stored handler, a tick delivered in state `running` or
`canceling_to_ff` invokes nothing but still advances the periodic cycle:
the execution step passes through `executing` and, nothing having changed
the state, `start()` schedules the next wake-up, so the final state is
`running` with one fresh pending wake-up — an unset handler does not stop
the timer. -/
theorem C10_empty_handler_keeps_cycle (c : Config) (d0 : Nat)
    (hd : c.wasDestroyed = false) (hh : c.handler = none) (hp : c.pending = [d0])
    (hs : c.state = State.running ∨ c.state = State.cancelingToFF) :
    (deliverTick c).invocations = [] ∧
    (deliverTick c).cfg.state = State.running ∧
    (deliverTick c).cfg.pending = [c.period] ∧
    (deliverTick c).schedules = 1 ∧ (deliverTick c).fatal = false := by
  obtain ⟨s, p, hand, pend, d⟩ := c
  replace hd : d = false := hd
  replace hh : hand = none := hh
  replace hp : pend = [d0] := hp
  subst hd
  subst hh
  subst hp
  rcases hs with hs | hs <;>
    (replace hs : s = _ := hs
     subst hs
     refine ⟨?_, ?_, ?_, ?_, ?_⟩ <;>
       simp [deliverTick, doHandleTick, executeStep, start, startAux, doStart,
         Res.pure, Res.comb])

theorem C10_empty_handler_keeps_cycle_witness :
    (deliverTick ⟨State.cancelingToFF, 7, none, [4], false⟩).invocations = [] ∧
    (deliverTick ⟨State.cancelingToFF, 7, none, [4], false⟩).cfg.state = State.running ∧
    (deliverTick ⟨State.cancelingToFF, 7, none, [4], false⟩).cfg.pending =
      [(⟨State.cancelingToFF, 7, none, [4], false⟩ : Config).period] ∧
    (deliverTick ⟨State.cancelingToFF, 7, none, [4], false⟩).schedules = 1 ∧
    (deliverTick ⟨State.cancelingToFF, 7, none, [4], false⟩).fatal = false :=
  C10_empty_handler_keeps_cycle ⟨State.cancelingToFF, 7, none, [4], false⟩ 4
    rfl rfl rfl (Or.inr rfl)

end PeriodicTimer
